import Mathlib

/-!
Shallow embedding of the `PassCode` React component
(`fibonacid/passcode-input`, `lib/main.tsx`).

The component keeps a list `code : List String` of single-character cells
(`""` meaning "unset"), fixed at `numberOfDigits = N` cells on first mount,
and reacts to keyboard and paste events delivered to a cell.  Each input
cell carries a `data-index` attribute; the handlers read it back through
`Number(target.dataset.index)`.

The two event handlers `handleKeyDown` and `handlePaste` are embedded below
as pure functions from the current code, the target cell's `data-index`
attribute and the event payload to a result record holding the new code,
the argument passed to `moveFocus` (if any), whether `event.preventDefault()`
was called, and the list of completion-callback invocations the handler
performed (the component declares no completion callback, so this list is
empty in every branch; the field records that fact explicitly).
-/

set_option autoImplicit false

namespace PassCode

/-- Result of evaluating a JavaScript numeric expression such as
`Number(target.dataset.index)`: the value `undefined`, the value `NaN`,
or an actual (integral) number.  `undefined` is included because
`handleKeyDown` compares the parse result against it. -/
inductive JsVal where
  | undef : JsVal
  | nan : JsVal
  | int : Int → JsVal
deriving DecidableEq, Repr

/-- Decimal parsing of an attribute string, as `Number` performs it on the
strings the component can write: a non-empty all-digit string is its
decimal value, anything else is not a number. -/
def parseDecimal (cs : List Char) : Option Nat :=
  if cs ≠ [] ∧ cs.all Char.isDigit then
    some (cs.foldl (fun n c => n * 10 + (c.toNat - Char.toNat '0')) 0)
  else none

/-- Embedding of `Number(target.dataset.index)`.  `target.dataset.index` is
`undefined` when the attribute is absent (then `Number(undefined)` is `NaN`)
and otherwise the attribute string.  The component itself only ever writes
a decimal cell index (`data-index={index}` with `index : 0..N-1`); any other
string is unparseable and yields `NaN`. -/
def jsNumber : Option String → JsVal
  | none => JsVal.nan
  | some s =>
    match parseDecimal s.toList with
    | some n => JsVal.int n
    | none => JsVal.nan

deriving instance DecidableEq for Except

/-- JavaScript addition of a number to a `JsVal`: `NaN` (and `undefined`)
propagate to `NaN`. -/
def JsVal.add : JsVal → Int → JsVal
  | JsVal.int n, m => JsVal.int (n + m)
  | _, _ => JsVal.nan

/-- Embedding of the JavaScript comparison `index > 0`:
false on `NaN` and `undefined`. -/
def JsVal.isGtZero : JsVal → Bool
  | JsVal.int n => decide (0 < n)
  | _ => false

/-- A keyboard event as the handler reads it: `event.key`, `event.metaKey`
and `event.ctrlKey`.  The source reads only `key` and `metaKey`;
`ctrlKey` is carried so that Ctrl-combinations are representable. -/
structure KeyEvent where
  key : String
  metaKey : Bool
  ctrlKey : Bool
deriving DecidableEq, Repr

/-- Embedding of the JavaScript array write `a[i] = v` on an array value.
For an in-range index this replaces the element; for an index beyond the
end JavaScript extends the array (the holes, which the component never
reads back as anything but falsy cell values, are modelled as `""`); for a
negative, `NaN` or `undefined` index JavaScript stores a non-index string
property, so the array elements are unchanged. -/
def jsArraySet (a : List String) (i : JsVal) (v : String) : List String :=
  match i with
  | JsVal.int n =>
    if 0 ≤ n then
      if n.toNat < a.length then a.set n.toNat v
      else a ++ List.replicate (n.toNat - a.length) "" ++ [v]
    else a
  | _ => a

/-- Embedding of the string indexing `pasted[k] ?? ""` used by the paste
loop: the `k`-th pasted character as a one-character string, or `""`
when `k` is past the end (`pasted[k]` is `undefined`, so `?? ""` applies). -/
def jsStringAt (pasted : List Char) (k : Nat) : String :=
  match pasted[k]? with
  | some c => String.mk [c]
  | none => ""

/-- The initial code state:
`Array.from({ length: numberOfDigits }, () => "")`. -/
def initialCode (N : Nat) : List String := List.replicate N ""

/-- Embedding of `moveFocus`: `containerRef.current?.children[index]` is the
`index`-th rendered input when `0 ≤ index < N` and `undefined` otherwise
(also for a `NaN` index), and `.focus()` is called only on an
`HTMLInputElement`.  The result is the position of the input that received
focus, or `none` when no element was focused. -/
def moveFocus (N : Nat) (i : JsVal) : Option Nat :=
  match i with
  | JsVal.int n => if 0 ≤ n ∧ n < (N : Int) then some n.toNat else none
  | _ => none

/-- Embedding of the `for` loop of `handlePaste`'s short-paste branch:
starting from `next = [...code]`, for `i` from `index` to `N - 1` it sets
`next[i] = pasted[i - index] ?? ""`.  `start` is the position of the head
of the remaining list.  (When `code` has exactly `N` elements — the
component's invariant — this pointwise form coincides with the loop;
JavaScript would extend a shorter array, which cannot occur.) -/
def pasteFillFrom (pasted : List Char) (index N : Nat) : Nat → List String → List String
  | _, [] => []
  | start, c :: rest =>
    (if index ≤ start ∧ start < N then jsStringAt pasted (start - index) else c)
      :: pasteFillFrom pasted index N (start + 1) rest

/-- The short-paste overwrite, applied to the whole code list. -/
def pasteFill (code : List String) (pasted : List Char) (index N : Nat) : List String :=
  pasteFillFrom pasted index N 0 code

/-- Observable outcome of one `handleKeyDown` call. -/
structure KeyDownResult where
  /-- The code list after the call (the argument of `setCode`, or the
  previous code when `setCode` was not called). -/
  code : List String
  /-- The argument passed to `moveFocus`, or `none` when `moveFocus` was
  not called. -/
  focusArg : Option JsVal
  /-- Whether `event.preventDefault()` was called. -/
  preventedDefault : Bool
  /-- The arguments of the completion-callback invocations the handler
  performed.  The component's props declare no completion callback and the
  handler never invokes one, so every branch produces `[]`. -/
  onCompleteCalls : List String
deriving DecidableEq, Repr

/-- Observable outcome of one `handlePaste` call. -/
structure PasteResult where
  /-- The code list after the call. -/
  code : List String
  /-- The argument passed to `moveFocus`, or `none` when `moveFocus` was
  not called. -/
  focusArg : Option JsVal
  /-- Whether `event.preventDefault()` was called. -/
  preventedDefault : Bool
  /-- Completion-callback invocations; the handler performs none. -/
  onCompleteCalls : List String
deriving DecidableEq, Repr

/-- Embedding of `handleKeyDown`.  `prev` is the current code (the handler
updates it functionally through `setCode(prev => ...)`), `tag` is
`target.dataset.index` (absent attribute = `none`), `ev` the keyboard
event.  Mirrors the source line by line:

* `if (event.metaKey && event.key === "v") return;`
* `if (event.metaKey) return;`
* `event.preventDefault();`
* `const index = Number(target.dataset.index);`
* `if (index === undefined) throw new Error(...)` — `Number` never returns
  `undefined`, so this guard can never fire;
* Backspace: `moveFocus(index - 1)`, clear `next[index]` and, when
  `index > 0`, `next[index - 1]`;
* a length-1 key: `moveFocus(index + 1)`, set `next[index]` to the key;
* any other key: nothing further. -/
def handleKeyDown (prev : List String) (tag : Option String) (ev : KeyEvent) :
    Except String KeyDownResult :=
  if ev.metaKey = true ∧ ev.key = "v" then
    Except.ok { code := prev, focusArg := none, preventedDefault := false, onCompleteCalls := [] }
  else if ev.metaKey = true then
    Except.ok { code := prev, focusArg := none, preventedDefault := false, onCompleteCalls := [] }
  else
    let index := jsNumber tag
    if index = JsVal.undef then
      Except.error "PassCode.Input must have a data-index attribute"
    else if ev.key = "Backspace" then
      Except.ok
        { code :=
            (let next := jsArraySet prev index ""
             if index.isGtZero then jsArraySet next (index.add (-1)) "" else next),
          focusArg := some (index.add (-1)),
          preventedDefault := true, onCompleteCalls := [] }
    else if ev.key.length = 1 then
      Except.ok
        { code := jsArraySet prev index ev.key,
          focusArg := some (index.add 1),
          preventedDefault := true, onCompleteCalls := [] }
    else
      Except.ok { code := prev, focusArg := none, preventedDefault := true, onCompleteCalls := [] }

/-- Embedding of `handlePaste`.  `N` is `numberOfDigits`, `code` the
current code, `tag` the target's `data-index` attribute, `pasted` the
clipboard text.  Mirrors the source:

* `event.preventDefault();` (every branch has `preventedDefault := true`);
* `const index = Number(target.dataset.index);
  if (index === undefined || isNaN(index)) return;`
* when `pasted.length >= N`: `moveFocus(N - 1)` and
  `setCode(Array.from(pasted.slice(0, N)))`;
* otherwise: `moveFocus(index + pasted.length)` and overwrite positions
  `index..N-1` via the loop embedded by `pasteFill`.  (`jsNumber` only
  produces non-negative numbers, so `n.toNat` is exact.) -/
def handlePaste (N : Nat) (code : List String) (tag : Option String) (pasted : List Char) :
    PasteResult :=
  match jsNumber tag with
  | JsVal.undef =>
    { code := code, focusArg := none, preventedDefault := true, onCompleteCalls := [] }
  | JsVal.nan =>
    { code := code, focusArg := none, preventedDefault := true, onCompleteCalls := [] }
  | JsVal.int n =>
    if (N : Int) ≤ pasted.length then
      { code := (pasted.take N).map (fun c => String.mk [c]),
        focusArg := some (JsVal.int ((N : Int) - 1)),
        preventedDefault := true, onCompleteCalls := [] }
    else
      { code := pasteFill code pasted n.toNat N,
        focusArg := some (JsVal.add (JsVal.int n) pasted.length),
        preventedDefault := true, onCompleteCalls := [] }

/-! ### Helper lemmas about the embedded primitives -/

/-- `Number(...)` never evaluates to `undefined`, so the
`index === undefined` guard of `handleKeyDown` can never fire. -/
theorem jsNumber_ne_undef (tag : Option String) : jsNumber tag ≠ JsVal.undef := by
  cases tag with
  | none => simp [jsNumber]
  | some s =>
    simp only [jsNumber]
    cases hp : parseDecimal s.toList <;> simp

/-- The parsed `data-index` value is `NaN` or a natural number. -/
theorem jsNumber_cases (tag : Option String) :
    jsNumber tag = JsVal.nan ∨ ∃ k : Nat, jsNumber tag = JsVal.int k := by
  cases tag with
  | none => exact Or.inl rfl
  | some s =>
    simp only [jsNumber]
    cases hp : parseDecimal s.toList with
    | none => exact Or.inl rfl
    | some n => exact Or.inr ⟨n, rfl⟩

/-- Writing through a non-negative in-range numeric index is `List.set`. -/
theorem jsArraySet_int_eq_set (a : List String) (n : Int) (v : String)
    (h0 : 0 ≤ n) (h : n.toNat < a.length) :
    jsArraySet a (JsVal.int n) v = a.set n.toNat v := by
  simp only [jsArraySet]
  rw [if_pos h0, if_pos h]

/-- Writing through a `NaN` index leaves the array unchanged. -/
theorem jsArraySet_nan (a : List String) (v : String) :
    jsArraySet a JsVal.nan v = a := rfl

/-- An in-range (or non-numeric, or negative) write preserves the length. -/
theorem jsArraySet_length (a : List String) (i : JsVal) (v : String)
    (h : ∀ n : Int, i = JsVal.int n → 0 ≤ n → n.toNat < a.length) :
    (jsArraySet a i v).length = a.length := by
  cases i with
  | undef => rfl
  | nan => rfl
  | int n =>
    simp only [jsArraySet]
    by_cases h0 : 0 ≤ n
    · rw [if_pos h0, if_pos (h n rfl h0)]
      exact List.length_set a n.toNat v
    · rw [if_neg h0]

/-- The paste-overwrite loop preserves the length of the code list. -/
theorem pasteFillFrom_length (pasted : List Char) (index N : Nat) :
    ∀ (start : Nat) (l : List String),
      (pasteFillFrom pasted index N start l).length = l.length
  | _, [] => rfl
  | start, c :: rest => by
    unfold pasteFillFrom
    simp only [List.length_cons]
    rw [pasteFillFrom_length pasted index N (start + 1) rest]

/-- Pointwise description of the paste-overwrite loop. -/
theorem pasteFillFrom_getElem? (pasted : List Char) (index N : Nat) :
    ∀ (start : Nat) (l : List String) (j : Nat),
      (pasteFillFrom pasted index N start l)[j]? =
        (l[j]?).map (fun c =>
          if index ≤ start + j ∧ start + j < N then jsStringAt pasted (start + j - index)
          else c)
  | _, [], j => by simp [pasteFillFrom]
  | start, c :: rest, 0 => by simp [pasteFillFrom]
  | start, c :: rest, j + 1 => by
    unfold pasteFillFrom
    simp only [List.getElem?_cons_succ]
    rw [pasteFillFrom_getElem? pasted index N (start + 1) rest j]
    have h : start + 1 + j = start + (j + 1) := by omega
    rw [h]

/-- Pointwise description of `pasteFill` (the loop started at position 0). -/
theorem pasteFill_getElem? (code : List String) (pasted : List Char) (index N j : Nat) :
    (pasteFill code pasted index N)[j]? =
      (code[j]?).map (fun c =>
        if index ≤ j ∧ j < N then jsStringAt pasted (j - index) else c) := by
  unfold pasteFill
  rw [pasteFillFrom_getElem? pasted index N 0 code j]
  simp only [Nat.zero_add]

/-- Length preservation for `pasteFill`. -/
theorem pasteFill_length (code : List String) (pasted : List Char) (index N : Nat) :
    (pasteFill code pasted index N).length = code.length :=
  pasteFillFrom_length pasted index N 0 code

/-- With the meta modifier held, `handleKeyDown` returns before doing
anything: first branch when the key is `"v"`, second branch otherwise. -/
theorem handleKeyDown_meta (code : List String) (tag : Option String) (ev : KeyEvent)
    (hmeta : ev.metaKey = true) :
    handleKeyDown code tag ev =
      Except.ok
        { code := code, focusArg := none, preventedDefault := false, onCompleteCalls := [] } := by
  unfold handleKeyDown
  by_cases hv : ev.key = "v"
  · rw [if_pos ⟨hmeta, hv⟩]
  · rw [if_neg (fun h => hv h.2), if_pos hmeta]

/-! ### Claims -/

/-- Claim C10: for every key event in which the meta modifier is held,
whatever the key is, `handleKeyDown` returns immediately: the code is
unchanged, no focus move is requested, and default handling is not
suppressed. -/
theorem C10_meta_key_ignored (code : List String) (tag : Option String) (ev : KeyEvent)
    (hmeta : ev.metaKey = true) :
    handleKeyDown code tag ev =
      Except.ok
        { code := code, focusArg := none, preventedDefault := false, onCompleteCalls := [] } :=
  handleKeyDown_meta code tag ev hmeta

/-- Witness for C10 at a concrete meta-key event. -/
theorem C10_meta_key_ignored_witness :
    handleKeyDown ["a", "b"] (some "0") { key := "x", metaKey := true, ctrlKey := false } =
      Except.ok
        { code := ["a", "b"], focusArg := none, preventedDefault := false,
          onCompleteCalls := [] } :=
  C10_meta_key_ignored ["a", "b"] (some "0")
    { key := "x", metaKey := true, ctrlKey := false } rfl

/-- Claim C2 (counterexample): Ctrl+V — the platform paste-modifier
combination outside macOS — is not ignored by `handleKeyDown`; the source
checks only `event.metaKey`, so default handling is suppressed and the
letter "v" is written into the cell. -/
theorem C2_counterexample :
    handleKeyDown ["", ""] (some "0") { key := "v", metaKey := false, ctrlKey := true } =
      Except.ok
        { code := ["v", ""], focusArg := some (JsVal.int 1), preventedDefault := true,
          onCompleteCalls := [] } := by decide

/-- Claim C2 (amended): `handleKeyDown` ignores the event entirely exactly
when the meta modifier is held — this covers Cmd+V but also every other
Cmd-combination, and does not cover Ctrl+V — and otherwise suppresses
default handling before dispatching on the key. -/
theorem C2_meta_gate (code : List String) (tag : Option String) (ev : KeyEvent) :
    (ev.metaKey = true →
      handleKeyDown code tag ev =
        Except.ok
          { code := code, focusArg := none, preventedDefault := false,
            onCompleteCalls := [] }) ∧
    (ev.metaKey = false →
      (handleKeyDown code tag ev).toOption.map KeyDownResult.preventedDefault = some true) := by
  constructor
  · exact handleKeyDown_meta code tag ev
  · intro hm
    have hne := jsNumber_ne_undef tag
    simp only [handleKeyDown, hm, Bool.false_eq_true, false_and, if_false, if_neg hne]
    split_ifs <;> rfl

/-- Witness for C2: one meta event is ignored without `preventDefault`,
one non-meta event has its default suppressed. -/
theorem C2_meta_gate_witness :
    (handleKeyDown ["", ""] (some "0") { key := "a", metaKey := true, ctrlKey := false } =
      Except.ok
        { code := ["", ""], focusArg := none, preventedDefault := false,
          onCompleteCalls := [] }) ∧
    ((handleKeyDown ["", ""] (some "0")
        { key := "a", metaKey := false, ctrlKey := false }).toOption.map
      KeyDownResult.preventedDefault = some true) :=
  ⟨(C2_meta_gate ["", ""] (some "0") { key := "a", metaKey := true, ctrlKey := false }).1 rfl,
   (C2_meta_gate ["", ""] (some "0") { key := "a", metaKey := false, ctrlKey := false }).2 rfl⟩

/-- Claim C9: for every focus request with a position outside `0..N-1`
(including `-1` after Backspace at position 0 and `N` after typing at
position `N-1`), `moveFocus` focuses no element. -/
theorem C9_focus_out_of_range (N : Nat) (i : Int) (h : i < 0 ∨ (N : Int) ≤ i) :
    moveFocus N (JsVal.int i) = none := by
  simp only [moveFocus]
  rw [if_neg]
  rintro ⟨h0, hN⟩
  rcases h with h | h <;> omega

/-- Witness for C9 at positions `-1` and `N` with `N = 4`. -/
theorem C9_focus_out_of_range_witness :
    moveFocus 4 (JsVal.int (-1)) = none ∧ moveFocus 4 (JsVal.int 4) = none :=
  ⟨C9_focus_out_of_range 4 (-1) (Or.inl (by decide)),
   C9_focus_out_of_range 4 4 (Or.inr (by decide))⟩

/-- Claim C3: a paste whose clipboard text has at least `N` characters
replaces the entire code with the first `N` pasted characters and requests
focus on the last cell, whatever the (parseable) start position is. -/
theorem C3_paste_full (N : Nat) (code : List String) (tag : Option String)
    (pasted : List Char) (i : Nat)
    (htag : jsNumber tag = JsVal.int i) (hN : N ≤ pasted.length) :
    handlePaste N code tag pasted =
      { code := (pasted.take N).map (fun c => String.mk [c]),
        focusArg := some (JsVal.int ((N : Int) - 1)),
        preventedDefault := true, onCompleteCalls := [] } := by
  simp only [handlePaste, htag]
  rw [if_pos (by exact_mod_cast hN)]

/-- Witness for C3: pasting 6 characters into a 4-cell code at position 2. -/
theorem C3_paste_full_witness :
    handlePaste 4 ["", "", "", ""] (some "2") "123456".toList =
      { code := ["1", "2", "3", "4"], focusArg := some (JsVal.int 3),
        preventedDefault := true, onCompleteCalls := [] } :=
  (C3_paste_full 4 ["", "", "", ""] (some "2") "123456".toList 2 (by decide)
    (by decide)).trans (by decide)

/-- Claim C8: a key or paste event whose position tag parses to `NaN`
(missing or unparseable `data-index`) leaves every code position unchanged
and throws no error.  For the paste handler this is the explicit `isNaN`
guard; for the key handler the dead `index === undefined` guard does not
fire, but the `NaN` array writes touch no element and the `NaN` focus
index focuses nothing. -/
theorem C8_malformed_tag_noop (N : Nat) (code : List String) (tag : Option String)
    (ev : KeyEvent) (pasted : List Char) (htag : jsNumber tag = JsVal.nan) :
    (handleKeyDown code tag ev).toOption.map KeyDownResult.code = some code ∧
    (handlePaste N code tag pasted).code = code := by
  constructor
  · by_cases hm : ev.metaKey = true
    · rw [handleKeyDown_meta code tag ev hm]
      rfl
    · simp only [handleKeyDown, htag]
      rw [if_neg (fun h => hm h.1), if_neg hm]
      split_ifs <;> simp_all [Except.toOption, jsArraySet_nan, JsVal.isGtZero]
  · simp only [handlePaste, htag]

/-- Witness for C8 at a missing `data-index` attribute. -/
theorem C8_malformed_tag_noop_witness :
    (handleKeyDown ["a", "b"] none
        { key := "x", metaKey := false, ctrlKey := false }).toOption.map
      KeyDownResult.code = some ["a", "b"] ∧
    (handlePaste 2 ["a", "b"] none "zz".toList).code = ["a", "b"] :=
  C8_malformed_tag_noop 2 ["a", "b"] none { key := "x", metaKey := false, ctrlKey := false }
    "zz".toList rfl

/-- Claim C5: a key event whose key is a single character, delivered at a
parseable position `i` inside the code (whatever the cell currently
holds), sets position `i` to that character, leaves every other position
unchanged (`List.set`), and requests focus on position `i + 1`. -/
theorem C5_single_char_sets_cell (code : List String) (tag : Option String) (ev : KeyEvent)
    (i : Nat) (hmeta : ev.metaKey = false) (hkey : ev.key.length = 1)
    (htag : jsNumber tag = JsVal.int i) (hi : i < code.length) :
    handleKeyDown code tag ev =
      Except.ok
        { code := code.set i ev.key, focusArg := some (JsVal.int (i + 1)),
          preventedDefault := true, onCompleteCalls := [] } := by
  have hkb : ev.key ≠ "Backspace" := by
    intro hb
    rw [hb] at hkey
    exact absurd hkey (by decide)
  simp only [handleKeyDown, htag]
  rw [if_neg (by simp [hmeta]), if_neg (by simp [hmeta]),
    if_neg (fun h => JsVal.noConfusion h), if_neg hkb, if_pos hkey,
    jsArraySet_int_eq_set code i ev.key (Int.natCast_nonneg i)
      (by rwa [Int.toNat_natCast])]
  simp only [JsVal.add, Int.toNat_natCast]

/-- Witness for C5: typing "x" at position 1 of a 3-cell code. -/
theorem C5_single_char_sets_cell_witness :
    handleKeyDown ["a", "b", "c"] (some "1") { key := "x", metaKey := false, ctrlKey := false } =
      Except.ok
        { code := ["a", "x", "c"], focusArg := some (JsVal.int 2),
          preventedDefault := true, onCompleteCalls := [] } :=
  (C5_single_char_sets_cell ["a", "b", "c"] (some "1")
      { key := "x", metaKey := false, ctrlKey := false } 1 rfl (by decide) (by decide)
      (by decide)).trans (by decide)

/-- Claim C6: a Backspace key event at a parseable position `i` inside the
code clears position `i`; when `i > 0` it also clears position `i - 1` and
the focus request is `i - 1`; at position 0 only position 0 is cleared
(the focus request is then `-1`, which focuses nothing). -/
theorem C6_backspace_clears (code : List String) (tag : Option String) (ev : KeyEvent)
    (i : Nat) (hmeta : ev.metaKey = false) (hkey : ev.key = "Backspace")
    (htag : jsNumber tag = JsVal.int i) (hi : i < code.length) :
    handleKeyDown code tag ev =
      Except.ok
        { code := if 0 < i then (code.set i "").set (i - 1) "" else code.set i "",
          focusArg := some (JsVal.int ((i : Int) - 1)),
          preventedDefault := true, onCompleteCalls := [] } := by
  rw [show (i : Int) - 1 = (i : Int) + -1 from by ring]
  simp only [handleKeyDown, htag]
  rw [if_neg (by simp [hmeta]), if_neg (by simp [hmeta]),
    if_neg (fun h => JsVal.noConfusion h), if_pos hkey,
    jsArraySet_int_eq_set code i "" (Int.natCast_nonneg i) (by rwa [Int.toNat_natCast])]
  simp only [JsVal.add, JsVal.isGtZero, Int.toNat_natCast, decide_eq_true_eq]
  by_cases h0 : 0 < i
  · have h0' : (0 : Int) < (i : Int) := by exact_mod_cast h0
    rw [if_pos h0', if_pos h0,
      jsArraySet_int_eq_set (code.set i "") ((i : Int) + -1) ""
        (by omega) (by rw [List.length_set]; omega)]
    have ht : ((i : Int) + -1).toNat = i - 1 := by omega
    rw [ht]
  · have h0' : ¬ (0 : Int) < (i : Int) := by exact_mod_cast h0
    rw [if_neg h0', if_neg h0]

/-- Witness for C6: Backspace at position 2 of "12_" clears cells 2 and 1
and requests focus on cell 1. -/
theorem C6_backspace_clears_witness :
    handleKeyDown ["1", "2", ""] (some "2")
        { key := "Backspace", metaKey := false, ctrlKey := false } =
      Except.ok
        { code := ["1", "", ""], focusArg := some (JsVal.int 1),
          preventedDefault := true, onCompleteCalls := [] } :=
  (C6_backspace_clears ["1", "2", ""] (some "2")
      { key := "Backspace", metaKey := false, ctrlKey := false } 2 rfl rfl (by decide)
      (by decide)).trans (by decide)

/-- The paste handler preserves the length of the code list. -/
theorem handlePaste_code_length (N : Nat) (code : List String) (tag : Option String)
    (pasted : List Char) (hlen : code.length = N) :
    (handlePaste N code tag pasted).code.length = N := by
  rcases jsNumber_cases tag with h | ⟨k, h⟩ <;> simp only [handlePaste, h]
  · exact hlen
  · by_cases hL : (N : Int) ≤ pasted.length
    · have hL' : N ≤ pasted.length := by exact_mod_cast hL
      rw [if_pos hL]
      simp only [List.length_map, List.length_take]
      omega
    · rw [if_neg hL]
      simp only [pasteFill_length]
      exact hlen

/-- The key handler preserves the length of the code list whenever the
position tag is `NaN` or a cell index below the length (the only values
the component's wiring can produce). -/
theorem handleKeyDown_code_length (code : List String) (tag : Option String) (ev : KeyEvent)
    (N : Nat) (hlen : code.length = N)
    (hidx : jsNumber tag = JsVal.nan ∨ ∃ n : Nat, jsNumber tag = JsVal.int n ∧ n < N) :
    (handleKeyDown code tag ev).toOption.map (fun r => r.code.length) = some N := by
  by_cases hm : ev.metaKey = true
  · rw [handleKeyDown_meta code tag ev hm]
    simp [Except.toOption, hlen]
  · rcases hidx with htag | ⟨n, htag, hn⟩
    · simp only [handleKeyDown, htag]
      rw [if_neg (fun h => hm h.1), if_neg hm,
        if_neg (fun h => JsVal.noConfusion h)]
      by_cases hb : ev.key = "Backspace"
      · rw [if_pos hb]
        simp [Except.toOption, jsArraySet_nan, JsVal.isGtZero, hlen]
      · rw [if_neg hb]
        by_cases hc : ev.key.length = 1
        · rw [if_pos hc]
          simp [Except.toOption, jsArraySet_nan, hlen]
        · rw [if_neg hc]
          simp [Except.toOption, hlen]
    · simp only [handleKeyDown, htag]
      rw [if_neg (fun h => hm h.1), if_neg hm,
        if_neg (fun h => JsVal.noConfusion h)]
      have hset : ∀ v : String, jsArraySet code (JsVal.int n) v = code.set n v :=
        fun v => jsArraySet_int_eq_set code n v (Int.natCast_nonneg n)
          (by rw [Int.toNat_natCast]; omega)
      by_cases hb : ev.key = "Backspace"
      · rw [if_pos hb]
        simp only [JsVal.isGtZero, JsVal.add, decide_eq_true_eq]
        by_cases h0 : (0 : Int) < (n : Int)
        · rw [if_pos h0, hset,
            jsArraySet_int_eq_set (code.set n "") ((n : Int) + -1) ""
              (by omega) (by rw [List.length_set]; omega)]
          simp [Except.toOption, hlen]
        · rw [if_neg h0, hset]
          simp [Except.toOption, hlen]
      · rw [if_neg hb]
        by_cases hc : ev.key.length = 1
        · rw [if_pos hc, hset]
          simp [Except.toOption, hlen]
        · rw [if_neg hc]
          simp [Except.toOption, hlen]

/-- Claim C7: the code starts as `N` empty strings, where `N` is fixed at
construction from the declared cell count, and both handlers keep its
length at exactly `N` for every event the component's wiring can deliver
(a `NaN` or in-range position tag, any key, any clipboard text). -/
theorem C7_fixed_length (N : Nat) (code : List String) (tag : Option String)
    (ev : KeyEvent) (pasted : List Char) (hlen : code.length = N)
    (hidx : jsNumber tag = JsVal.nan ∨ ∃ n : Nat, jsNumber tag = JsVal.int n ∧ n < N) :
    initialCode N = List.replicate N "" ∧ (initialCode N).length = N ∧
    (handleKeyDown code tag ev).toOption.map (fun r => r.code.length) = some N ∧
    (handlePaste N code tag pasted).code.length = N :=
  ⟨rfl, List.length_replicate N "",
   handleKeyDown_code_length code tag ev N hlen hidx,
   handlePaste_code_length N code tag pasted hlen⟩

/-- Witness for C7 with `N = 4`, a keystroke at cell 0 and a 2-character
paste at cell 0. -/
theorem C7_fixed_length_witness :
    initialCode 4 = List.replicate 4 "" ∧ (initialCode 4).length = 4 ∧
    (handleKeyDown ["", "", "", ""] (some "0")
        { key := "x", metaKey := false, ctrlKey := false }).toOption.map
      (fun r => r.code.length) = some 4 ∧
    (handlePaste 4 ["", "", "", ""] (some "0") "12".toList).code.length = 4 :=
  C7_fixed_length 4 ["", "", "", ""] (some "0")
    { key := "x", metaKey := false, ctrlKey := false } "12".toList (by decide)
    (Or.inr ⟨0, by decide, by decide⟩)

/-- Claim C4: a paste of `L < N` characters at a parseable position `i`
keeps the code length at `N`, leaves positions below `i` unchanged,
overwrites positions `i..i+L-1` with the pasted characters in order,
clears the remaining positions up to `N-1` to the empty string, and
requests focus on position `i + L`. -/
theorem C4_paste_shorter (N : Nat) (code : List String) (tag : Option String)
    (pasted : List Char) (i : Nat)
    (htag : jsNumber tag = JsVal.int i) (hL : pasted.length < N)
    (hlen : code.length = N) :
    (handlePaste N code tag pasted).code.length = N ∧
    (∀ j, j < i → (handlePaste N code tag pasted).code[j]? = code[j]?) ∧
    (∀ j, i ≤ j → j < i + pasted.length → j < N →
      (handlePaste N code tag pasted).code[j]? =
        (pasted[j - i]?).map (fun c => String.mk [c])) ∧
    (∀ j, i + pasted.length ≤ j → j < N →
      (handlePaste N code tag pasted).code[j]? = some "") ∧
    (handlePaste N code tag pasted).focusArg = some (JsVal.int (i + pasted.length)) := by
  have hL' : ¬ ((N : Int) ≤ pasted.length) := by
    rw [Int.not_le]
    exact_mod_cast hL
  have hps : handlePaste N code tag pasted =
      { code := pasteFill code pasted i N,
        focusArg := some (JsVal.int (i + pasted.length)),
        preventedDefault := true, onCompleteCalls := [] } := by
    simp only [handlePaste, htag]
    rw [if_neg hL']
    simp only [JsVal.add, Int.toNat_natCast]
  rw [hps]
  refine ⟨?_, ?_, ?_, ?_, rfl⟩
  · rw [pasteFill_length]
    exact hlen
  · intro j hj
    have hcond : ¬ (i ≤ j ∧ j < N) := fun h => absurd h.1 (Nat.not_le.mpr hj)
    simp only [pasteFill_getElem?, if_neg hcond, Option.map_id']
  · intro j hij hjL hjN
    have hc : j < code.length := by omega
    have hp : j - i < pasted.length := by omega
    rw [pasteFill_getElem?, List.getElem?_eq_getElem hc, List.getElem?_eq_getElem hp]
    simp only [if_pos (And.intro hij hjN), jsStringAt, List.getElem?_eq_getElem hp]
    rfl
  · intro j hjL hjN
    have hc : j < code.length := by omega
    have hp : pasted.length ≤ j - i := by omega
    have hij : i ≤ j := by omega
    rw [pasteFill_getElem?, List.getElem?_eq_getElem hc]
    simp only [if_pos (And.intro hij hjN), jsStringAt, List.getElem?_eq_none hp]
    rfl

/-- Witness for C4: pasting "12" at position 1 of the 4-cell code
`["a","b","c","d"]` yields `["a","1","2",""]` and requests focus on cell 3. -/
theorem C4_paste_shorter_witness :
    (handlePaste 4 ["a", "b", "c", "d"] (some "1") "12".toList).code.length = 4 ∧
    (handlePaste 4 ["a", "b", "c", "d"] (some "1") "12".toList).code[0]? = some "a" ∧
    (handlePaste 4 ["a", "b", "c", "d"] (some "1") "12".toList).code[1]? = some "1" ∧
    (handlePaste 4 ["a", "b", "c", "d"] (some "1") "12".toList).code[3]? = some "" ∧
    (handlePaste 4 ["a", "b", "c", "d"] (some "1") "12".toList).focusArg =
      some (JsVal.int 3) :=
  ⟨(C4_paste_shorter 4 ["a", "b", "c", "d"] (some "1") "12".toList 1 (by decide) (by decide)
      (by decide)).1,
   (C4_paste_shorter 4 ["a", "b", "c", "d"] (some "1") "12".toList 1 (by decide) (by decide)
      (by decide)).2.1 0 (by decide),
   ((C4_paste_shorter 4 ["a", "b", "c", "d"] (some "1") "12".toList 1 (by decide) (by decide)
      (by decide)).2.2.1 1 (by decide) (by decide) (by decide)).trans (by decide),
   (C4_paste_shorter 4 ["a", "b", "c", "d"] (some "1") "12".toList 1 (by decide) (by decide)
      (by decide)).2.2.2.1 3 (by decide) (by decide),
   ((C4_paste_shorter 4 ["a", "b", "c", "d"] (some "1") "12".toList 1 (by decide) (by decide)
      (by decide)).2.2.2.2).trans (by decide)⟩

/-- Claim C1 (counterexample): typing "2" into the last empty cell of the
2-cell code `["1", ""]` produces the fully filled code `["1", "2"]`, yet
the handler performs no completion-callback invocation — the component
declares no completion callback at all, so the claimed callback cannot
fire on the has-empty to no-empty transition. -/
theorem C1_counterexample :
    handleKeyDown ["1", ""] (some "1") { key := "2", metaKey := false, ctrlKey := false } =
      Except.ok
        { code := ["1", "2"], focusArg := some (JsVal.int 2), preventedDefault := true,
          onCompleteCalls := [] } := by decide

/-- Claim C1 (amended): the component exposes no completion callback, and
neither the key handler nor the paste handler ever invokes one — on any
event, including those that fill the last empty position. -/
theorem C1_no_completion_callback (N : Nat) (code : List String) (tag : Option String)
    (ev : KeyEvent) (pasted : List Char) :
    (∀ r, handleKeyDown code tag ev = Except.ok r → r.onCompleteCalls = []) ∧
    (handlePaste N code tag pasted).onCompleteCalls = [] := by
  constructor
  · intro r hr
    by_cases hm : ev.metaKey = true
    · rw [handleKeyDown_meta code tag ev hm] at hr
      rw [← Except.ok.inj hr]
    · simp only [handleKeyDown] at hr
      rw [if_neg (fun h => hm h.1), if_neg hm] at hr
      split_ifs at hr <;>
        first
        | exact Except.noConfusion hr
        | rw [← Except.ok.inj hr]
  · rcases jsNumber_cases tag with h | ⟨k, h⟩ <;> simp only [handlePaste, h]
    split_ifs <;> rfl

/-- Witness for C1: the amended theorem applied to a keystroke that fills
a 1-cell code and to a paste into it. -/
theorem C1_no_completion_callback_witness :
    ({ code := ["x"], focusArg := some (JsVal.int 1), preventedDefault := true,
        onCompleteCalls := [] } : KeyDownResult).onCompleteCalls = ([] : List String) ∧
    (handlePaste 1 [""] (some "0") "9".toList).onCompleteCalls = [] :=
  ⟨(C1_no_completion_callback 1 [""] (some "0")
        { key := "x", metaKey := false, ctrlKey := false } "9".toList).1
      { code := ["x"], focusArg := some (JsVal.int 1), preventedDefault := true,
        onCompleteCalls := [] } (by decide),
   (C1_no_completion_callback 1 [""] (some "0")
        { key := "x", metaKey := false, ctrlKey := false } "9".toList).2⟩

end PassCode
